import Mathlib

/-!
Shallow embedding of `src/geom/vector.rs` from the quicksilver repository:
a 2D vector with two floating-point components and its constructors,
queries, operators and approximate equality.  Components are idealized as
exact rationals (`ℚ`); the length, which takes a square root, is valued in
`ℝ`.  Each definition below mirrors one Rust item of the source file.
-/

namespace Quicksilver

/-- Tolerance constant `FLOAT_LIMIT = 0.000001f32` from vector.rs line 5. -/
def FLOAT_LIMIT : ℚ := 1 / 1000000

/-- Absolute value as `f32::abs` computes it, written so the kernel can
evaluate it on concrete rationals. -/
def fabs (q : ℚ) : ℚ := if q < 0 then -q else q

/-- The executable absolute value agrees with the mathematical one. -/
theorem fabs_eq_abs (q : ℚ) : fabs q = |q| := by
  by_cases h : q < 0
  · rw [fabs, if_pos h, abs_of_neg h]
  · rw [fabs, if_neg h, abs_of_nonneg (not_lt.mp h)]

/-- A 2D vector (`struct Vector { x: f32, y: f32 }`), components idealized as rationals. -/
structure Vector where
  x : ℚ
  y : ℚ
deriving DecidableEq

namespace Vector

/-- The zero vector (`Vector::zero`). -/
def zero : Vector := ⟨0, 0⟩

/-- Unit x vector (`Vector::x`). -/
def xAxis : Vector := ⟨1, 0⟩

/-- Unit y vector (`Vector::y`). -/
def yAxis : Vector := ⟨0, 1⟩

/-- The all-ones vector (`Vector::one`). -/
def one : Vector := ⟨1, 1⟩

/-- Constructor `Vector::new`. -/
def new (x y : ℚ) : Vector := ⟨x, y⟩

/-- Constructor `Vector::newi`, converting integers to the component type. -/
def newi (x y : ℤ) : Vector := new (x : ℚ) (y : ℚ)

/-- Squared length `Vector::len2`: `self.x * self.x + self.y * self.y`. -/
def len2 (v : Vector) : ℚ := v.x * v.x + v.y * v.y

/-- Length `Vector::len`: `self.len2().sqrt()`, valued in `ℝ`. -/
noncomputable def len (v : Vector) : ℝ := Real.sqrt ((v.len2 : ℚ) : ℝ)

/-- Clamp `Vector::clamp`: per component the code computes
`max_bound.min(min_bound.max(self))`, that is `min max_bound (max min_bound self)`. -/
def clamp (v min_bound max_bound : Vector) : Vector :=
  new (min max_bound.x (max min_bound.x v.x)) (min max_bound.y (max min_bound.y v.y))

/-- Scalar 2D cross product `Vector::cross`. -/
def cross (v other : Vector) : ℚ := v.x * other.y - v.y * other.x

/-- Dot product `Vector::dot`. -/
def dot (v other : Vector) : ℚ := v.x * other.x + v.y * other.y

/-- X component as a vector, `Vector::x_comp`: `(x, 0)`. -/
def x_comp (v : Vector) : Vector := new v.x 0

/-- Y component as a vector, `Vector::y_comp`: `(0, y)`. -/
def y_comp (v : Vector) : Vector := new 0 v.y

/-- Component-wise reciprocal `Vector::recip`: `(1/x, 1/y)`. -/
def recip (v : Vector) : Vector := new v.x⁻¹ v.y⁻¹

/-- Component-wise (Hadamard) product `Vector::times`. -/
def times (v other : Vector) : Vector := new (v.x * other.x) (v.y * other.y)

/-- Negation, `impl Neg for Vector`. -/
def neg (v : Vector) : Vector := new (-v.x) (-v.y)

/-- Addition, `impl Add for Vector`. -/
def add (v rhs : Vector) : Vector := new (v.x + rhs.x) (v.y + rhs.y)

/-- Compound addition `impl AddAssign`: the code performs `*self = *self + rhs`,
so the new value of the binding is this function of the old value and `rhs`. -/
def addAssign (self rhs : Vector) : Vector := self.add rhs

/-- Subtraction, `impl Sub for Vector`: the code computes `self + (-rhs)`. -/
def sub (v rhs : Vector) : Vector := v.add rhs.neg

/-- Compound subtraction `impl SubAssign`: `*self = *self - rhs`. -/
def subAssign (self rhs : Vector) : Vector := self.sub rhs

/-- Division by a float scalar, `impl Div<f32> for Vector`. -/
def divF (v : Vector) (rhs : ℚ) : Vector := new (v.x / rhs) (v.y / rhs)

/-- Compound float division `impl DivAssign<f32>`: `*self = *self / rhs`. -/
def divAssignF (self : Vector) (rhs : ℚ) : Vector := self.divF rhs

/-- Multiplication by a float scalar, `impl Mul<f32> for Vector`. -/
def mulF (v : Vector) (rhs : ℚ) : Vector := new (v.x * rhs) (v.y * rhs)

/-- Compound float multiplication `impl MulAssign<f32>`: `*self = *self * rhs`. -/
def mulAssignF (self : Vector) (rhs : ℚ) : Vector := self.mulF rhs

/-- Division by an integer scalar, `impl Div<i32> for Vector`:
the scalar is converted to the float type first (`rhs as f32`). -/
def divI (v : Vector) (rhs : ℤ) : Vector := new (v.x / (rhs : ℚ)) (v.y / (rhs : ℚ))

/-- Compound integer division `impl DivAssign<i32>`: `*self = *self / rhs`. -/
def divAssignI (self : Vector) (rhs : ℤ) : Vector := self.divI rhs

/-- Multiplication by an integer scalar, `impl Mul<i32> for Vector`. -/
def mulI (v : Vector) (rhs : ℤ) : Vector := new (v.x * (rhs : ℚ)) (v.y * (rhs : ℚ))

/-- Compound integer multiplication `impl MulAssign<i32>`: `*self = *self * rhs`. -/
def mulAssignI (self : Vector) (rhs : ℤ) : Vector := self.mulI rhs

/-- Approximate equality, `impl PartialEq for Vector`:
`(self.x - other.x).abs() < FLOAT_LIMIT && (self.y - other.y).abs() < FLOAT_LIMIT`. -/
def eq (a b : Vector) : Bool :=
  decide (fabs (a.x - b.x) < FLOAT_LIMIT) && decide (fabs (a.y - b.y) < FLOAT_LIMIT)

/-- Clamp formula as the SPEC words it (for comparison with `clamp` above):
"max(min_bound, min(max_bound, value))" per component, the min-then-max composition. -/
def clampSpecMinThenMax (v min_bound max_bound : Vector) : Vector :=
  new (max min_bound.x (min max_bound.x v.x)) (max min_bound.y (min max_bound.y v.y))

end Vector

/-- Helper: the tolerance equality is reflexive (each component differs by 0). -/
theorem eq_refl_true (v : Vector) : Vector.eq v v = true := by
  norm_num [Vector.eq, fabs_eq_abs, FLOAT_LIMIT]

/-- C1 as stated is false at a concrete input: at v = (0,0), min_bound = (5,5),
max_bound = (3,3) (an axis with min_bound > max_bound), the code's clamp yields
(3,3) — the max bound — while the claimed max(min_bound, min(max_bound, value))
min-then-max formula yields (5,5). -/
theorem C1_counterexample :
    Vector.clamp (Vector.new 0 0) (Vector.new 5 5) (Vector.new 3 3) ≠
      Vector.clampSpecMinThenMax (Vector.new 0 0) (Vector.new 5 5) (Vector.new 3 3) := by
  decide

/-- C1 (amended): clamp computes each result component as
min(max_bound.component, max(min_bound.component, v.component)) — the
max-then-min composition — so on an axis where min_bound.component >
max_bound.component the result on that axis is max_bound's component. -/
theorem C1_clamp_formula (v minB maxB : Vector) :
    (Vector.clamp v minB maxB).x = min maxB.x (max minB.x v.x) ∧
    (Vector.clamp v minB maxB).y = min maxB.y (max minB.y v.y) ∧
    (maxB.x < minB.x → (Vector.clamp v minB maxB).x = maxB.x) ∧
    (maxB.y < minB.y → (Vector.clamp v minB maxB).y = maxB.y) := by
  refine ⟨rfl, rfl, fun h => ?_, fun h => ?_⟩
  · exact min_eq_left (le_trans h.le (le_max_left _ _))
  · exact min_eq_left (le_trans h.le (le_max_left _ _))

/-- Witness for C1_clamp_formula at v = (0,0), min_bound = (5,5), max_bound = (3,3). -/
theorem C1_clamp_formula_witness :
    (Vector.clamp (Vector.new 0 0) (Vector.new 5 5) (Vector.new 3 3)).x = (3 : ℚ) :=
  (C1_clamp_formula (Vector.new 0 0) (Vector.new 5 5) (Vector.new 3 3)).2.2.1 (by decide)

/-- C2: a == b returns true iff each corresponding component differs by strictly
less than the tolerance constant 1e-6, compared per component. -/
theorem C2_eq_iff (a b : Vector) :
    Vector.eq a b = true ↔ |a.x - b.x| < FLOAT_LIMIT ∧ |a.y - b.y| < FLOAT_LIMIT := by
  simp [Vector.eq, fabs_eq_abs]

/-- Witness for C2_eq_iff at a = b = (5,5). -/
theorem C2_eq_iff_witness : Vector.eq (Vector.new 5 5) (Vector.new 5 5) = true :=
  (C2_eq_iff (Vector.new 5 5) (Vector.new 5 5)).mpr
    ⟨by simp [Vector.new, FLOAT_LIMIT], by simp [Vector.new, FLOAT_LIMIT]⟩

/-- C4: (a + b) - b equals a under the tolerance-1e-6 equality (the difference is
exactly 0 in the idealized exact arithmetic of the embedding). -/
theorem C4_add_sub_inverse (a b : Vector) :
    Vector.eq ((a.add b).sub b) a = true := by
  have h : (a.add b).sub b = a := by
    cases a with
    | mk ax ay =>
      cases b with
      | mk bx by_ =>
        simp only [Vector.add, Vector.sub, Vector.neg, Vector.new, Vector.mk.injEq]
        constructor <;> ring
  rw [h]
  exact eq_refl_true a

/-- C5: len is non-negative, len2 is non-negative, len2 equals len squared within
tolerance, and len is zero only for the zero vector. -/
theorem C5_length_props (v : Vector) :
    0 ≤ v.len ∧ 0 ≤ v.len2 ∧ |((v.len2 : ℝ)) - v.len * v.len| < ((FLOAT_LIMIT : ℚ) : ℝ) ∧
      (v.len = 0 → v = Vector.zero) := by
  have h2 : 0 ≤ v.len2 := add_nonneg (mul_self_nonneg _) (mul_self_nonneg _)
  have h2R : (0 : ℝ) ≤ ((v.len2 : ℚ) : ℝ) := by exact_mod_cast h2
  refine ⟨Real.sqrt_nonneg _, h2, ?_, ?_⟩
  · rw [Vector.len, Real.mul_self_sqrt h2R, sub_self, abs_zero]
    norm_num [FLOAT_LIMIT]
  · intro h0
    rw [Vector.len, Real.sqrt_eq_zero h2R] at h0
    have hq : v.len2 = 0 := by exact_mod_cast h0
    rw [Vector.len2] at hq
    obtain ⟨hx, hy⟩ :=
      (add_eq_zero_iff_of_nonneg (mul_self_nonneg _) (mul_self_nonneg _)).mp hq
    cases v with
    | mk x y =>
      have hx0 : x = 0 := mul_self_eq_zero.mp hx
      have hy0 : y = 0 := mul_self_eq_zero.mp hy
      rw [Vector.zero, hx0, hy0]

/-- Witness for C5_length_props at the zero vector. -/
theorem C5_length_props_witness :
    Vector.len Vector.zero = 0 ∧ Vector.zero = Vector.zero := by
  have h : Vector.len Vector.zero = 0 := by
    simp [Vector.len, Vector.len2, Vector.zero]
  exact ⟨h, (C5_length_props Vector.zero).2.2.2 h⟩

/-- C6: when min_bound <= max_bound on each axis, every component of the clamp
result lies in the closed interval between the bounds on its axis. -/
theorem C6_clamp_in_bounds (v minB maxB : Vector)
    (hx : minB.x ≤ maxB.x) (hy : minB.y ≤ maxB.y) :
    minB.x ≤ (Vector.clamp v minB maxB).x ∧ (Vector.clamp v minB maxB).x ≤ maxB.x ∧
      minB.y ≤ (Vector.clamp v minB maxB).y ∧ (Vector.clamp v minB maxB).y ≤ maxB.y :=
  ⟨le_min hx (le_max_left _ _), min_le_left _ _,
    le_min hy (le_max_left _ _), min_le_left _ _⟩

/-- Witness for C6_clamp_in_bounds with the bounds of the repository's clamp test. -/
theorem C6_clamp_in_bounds_witness :
    (-10 : ℚ) ≤ (Vector.clamp (Vector.new (-11) 3) (Vector.new (-10) (-2)) (Vector.new 5 6)).x :=
  (C6_clamp_in_bounds (Vector.new (-11) 3) (Vector.new (-10) (-2)) (Vector.new 5 6)
    (by decide) (by decide)).1

/-- C7: for a vector with nonzero components, the component-wise reciprocal taken
twice returns a vector equal to the original under the tolerance-1e-6 equality. -/
theorem C7_recip_involutive (v : Vector) (hx : v.x ≠ 0) (hy : v.y ≠ 0) :
    Vector.eq (v.recip.recip) v = true := by
  have h : v.recip.recip = v := by
    cases v with
    | mk x y => simp [Vector.recip, Vector.new]
  rw [h]
  exact eq_refl_true v

/-- Witness for C7_recip_involutive at v = (3,5). -/
theorem C7_recip_involutive_witness :
    Vector.eq ((Vector.new 3 5).recip.recip) (Vector.new 3 5) = true :=
  C7_recip_involutive (Vector.new 3 5) (by decide) (by decide)

/-- C8: the tolerance equality is reflexive (every vector in the exact-arithmetic
model satisfies the claim's finite, non-NaN invariant) and symmetric. -/
theorem C8_eq_refl_symm :
    (∀ v : Vector, Vector.eq v v = true) ∧
      ∀ a b : Vector, Vector.eq a b = Vector.eq b a := by
  refine ⟨eq_refl_true, fun a b => ?_⟩
  simp only [Vector.eq, fabs_eq_abs]
  rw [abs_sub_comm a.x b.x, abs_sub_comm a.y b.y]

/-- C9: each compound-assignment operator leaves the binding holding exactly the
value of the corresponding non-assigning operator applied to the old value and
the right-hand side, for vector, float-scalar and integer-scalar operands. -/
theorem C9_compound_assign (v w : Vector) (s : ℚ) (n : ℤ) :
    v.addAssign w = v.add w ∧ v.subAssign w = v.sub w ∧
      v.mulAssignF s = v.mulF s ∧ v.divAssignF s = v.divF s ∧
      v.mulAssignI n = v.mulI n ∧ v.divAssignI n = v.divI n :=
  ⟨rfl, rfl, rfl, rfl, rfl, rfl⟩

/-- C10: x_comp returns (x, 0), y_comp returns (0, y), and their sum equals the
original vector under the tolerance-1e-6 equality. -/
theorem C10_comp_decompose (v : Vector) :
    v.x_comp = Vector.new v.x 0 ∧ v.y_comp = Vector.new 0 v.y ∧
      Vector.eq (v.x_comp.add v.y_comp) v = true := by
  refine ⟨rfl, rfl, ?_⟩
  have h : v.x_comp.add v.y_comp = v := by
    cases v with
    | mk x y => simp [Vector.x_comp, Vector.y_comp, Vector.add, Vector.new]
  rw [h]
  exact eq_refl_true v

end Quicksilver
